import Mathlib

/-
Verification of the peertube-supernovao job orchestration engine.

Shallow embedding of the JavaScript sources:
  lib/health.js            -> namespaces Watchdog, Health, Shutdown
  lib/bridge.js            -> namespaces Bridge, ProcessJob, Occupancy
  lib/pool-manager.js      -> namespace PoolMgr
  lib/result-assembler.js  -> namespace ResultAsm
  lib/runner-client.js     -> namespace Runner
  lib/job-translator.js    -> supportedTypes / isSupported in namespace Bridge

JS Maps keyed by job uuid are embedded as association lists, JS Sets as
lists without duplicates, timer handles as explicit identified entries in
a list of live timers, and network / filesystem outcomes as explicit
parameters so every path of the code is a total function.
-/

/-- Lookup in an association list keyed by strings (JS Map.get). -/
def lookupKey {α : Type} : List (String × α) → String → Option α
  | [], _ => none
  | (k, v) :: rest, u => if k = u then some v else lookupKey rest u

/-- Remove a key from an association list (JS Map.delete). -/
def eraseKey {α : Type} : List (String × α) → String → List (String × α)
  | [], _ => []
  | (k, v) :: rest, u => if k = u then eraseKey rest u else (k, v) :: eraseKey rest u

/-- Insert or replace a key in an association list (JS Map.set). -/
def setKey {α : Type} (m : List (String × α)) (u : String) (v : α) : List (String × α) :=
  (u, v) :: eraseKey m u

/-- Add an element to a set-as-list (JS Set.add). -/
def addId (l : List String) (u : String) : List String :=
  if u ∈ l then l else u :: l

/-- Remove an element from a set-as-list (JS Map.delete / Set.delete on keys). -/
def removeId : List String → String → List String
  | [], _ => []
  | x :: rest, u => if x = u then removeId rest u else x :: removeId rest u

namespace Watchdog

/-
lib/health.js lines 5-53, class JobWatchdog.

Each setTimeout call is modelled as a fresh live timer (identified by a
serial number) that will deliver onTimeout for its job id unless it is
cleared.  The jobs Map stores, per id, the timer id recorded by the last
watch/kick.  The embedding mirrors the source exactly: watch does NOT
call clearTimeout on a pre-existing entry before overwriting it, while
kick and clear do.
-/

structure Entry where
  timerId : Nat
  deriving DecidableEq

structure State where
  nextId : Nat
  jobs : List (String × Entry)
  timers : List (Nat × String)
  deriving DecidableEq

def initial : State := ⟨0, [], []⟩

/-- Cancel a live timer by its id (JS clearTimeout). -/
def clearTimer (ts : List (Nat × String)) (tid : Nat) : List (Nat × String) :=
  ts.filter (fun t => t.1 != tid)

/-- health.js lines 11-18: watch sets a new timeout and overwrites the Map
entry, without clearing a timer already armed for the same id. -/
def watch (s : State) (u : String) : State :=
  { nextId := s.nextId + 1
  , timers := (s.nextId, u) :: s.timers
  , jobs := setKey s.jobs u ⟨s.nextId⟩ }

/-- health.js lines 20-30: kick clears the recorded timer and arms a new one;
no-op when the id is unknown. -/
def kick (s : State) (u : String) : State :=
  match lookupKey s.jobs u with
  | none => s
  | some e =>
    { nextId := s.nextId + 1
    , timers := (s.nextId, u) :: clearTimer s.timers e.timerId
    , jobs := setKey s.jobs u ⟨s.nextId⟩ }

/-- health.js lines 32-38: clear cancels the recorded timer and deletes the
entry; no-op when the id is unknown. -/
def clear (s : State) (u : String) : State :=
  match lookupKey s.jobs u with
  | none => s
  | some e =>
    { s with timers := clearTimer s.timers e.timerId, jobs := eraseKey s.jobs u }

/-- Number of live timers whose callback targets the given job id. -/
def timersFor (s : State) (u : String) : Nat :=
  (s.timers.filter (fun t => t.2 == u)).length

end Watchdog

namespace Health

/-
lib/health.js lines 55-123, class HealthMonitor.

The probe cycle _check is split on the outcome of the fetch: a successful
probe resets the streak, anything else goes through _recordFailure.  The
Bool paired with the state records whether the cycle emitted the
"unhealthy" event.
-/

structure MonitorState where
  maxConsecutiveFailures : Nat
  consecutiveFailures : Nat
  healthy : Bool
  deriving DecidableEq

/-- health.js lines 111-122 (_recordFailure): increment the streak; at or
above the threshold set healthy to false and emit "unhealthy". -/
def recordFailure (s : MonitorState) : MonitorState × Bool :=
  let f := s.consecutiveFailures + 1
  if s.maxConsecutiveFailures ≤ f then
    ({ s with consecutiveFailures := f, healthy := false }, true)
  else
    ({ s with consecutiveFailures := f }, false)

/-- health.js lines 87-100 (_check): a successful probe resets the streak to 0
and restores healthy; a failed probe goes through _recordFailure. -/
def check (s : MonitorState) (probeOk : Bool) : MonitorState × Bool :=
  if probeOk then ({ s with consecutiveFailures := 0, healthy := true }, false)
  else recordFailure s

/-- n consecutive failed probe cycles. -/
def failN (s : MonitorState) : Nat → MonitorState
  | 0 => s
  | n + 1 => (recordFailure (failN s n)).1

end Health

namespace Bridge

/-
lib/bridge.js (src/unnamed/part_003) lines 82-118, Bridge.poll, together
with isSupported from lib/job-translator.js (SUPPORTED_TYPES).

An async JS function runs synchronously up to its first await, so the
activeJobs.set at the top of processJob (line 121) executes before the
admission loop examines the next job; hence within a single poll
invocation every admission grows the active table before the next
capacity check.  The requestJob call is modelled by passing the returned
availableJobs list directly (a rejected requestJob is caught at line
115-117 and ends the cycle with no admission at all).
-/

/-- job-translator.js SUPPORTED_TYPES. -/
def supportedTypes : List String :=
  ["vod-web-video-transcoding", "vod-hls-transcoding", "vod-audio-merge-transcoding"]

/-- job-translator.js isSupported. -/
def isSupported (t : String) : Bool :=
  supportedTypes.contains t

structure AvailableJob where
  uuid : String
  type : String
  deriving DecidableEq

structure PollState where
  isRunning : Bool
  healthy : Bool
  active : List String
  failed : List String
  deriving DecidableEq

/-- A job passes the per-job admission filters of the loop body
(bridge.js lines 99-106): supported type and not previously failed. -/
def eligible (failed : List String) (j : AvailableJob) : Bool :=
  isSupported j.type && ! failed.contains j.uuid

/-- bridge.js lines 97-114: the admission loop.  Breaks when the active
table has reached maxConcurrentJobs, skips ineligible jobs (an
unsupported type at lines 99-102, a previously failed id at lines
103-106), and otherwise accepts the job, whose processJob task
immediately registers it in the active table. -/
def admitLoop (maxJobs : Nat) (failed : List String) :
    List AvailableJob → List String → List String
  | [], active => active
  | j :: rest, active =>
    if maxJobs ≤ active.length then active
    else if isSupported j.type then
      if failed.contains j.uuid then admitLoop maxJobs failed rest active
      else admitLoop maxJobs failed rest (active ++ [j.uuid])
    else admitLoop maxJobs failed rest active

/-- Sizes of the active table immediately after each admission made by the
loop (the admission-decision trace of one poll cycle). -/
def admitTrace (maxJobs : Nat) (failed : List String) :
    List AvailableJob → List String → List Nat
  | [], _ => []
  | j :: rest, active =>
    if maxJobs ≤ active.length then []
    else if isSupported j.type then
      if failed.contains j.uuid then admitTrace maxJobs failed rest active
      else (active.length + 1) :: admitTrace maxJobs failed rest (active ++ [j.uuid])
    else admitTrace maxJobs failed rest active

/-- bridge.js lines 82-118: poll.  No-op when not running (line 83), when
the health monitor reports unhealthy (lines 84-87), or when capacity is
already exhausted (lines 88-92); otherwise it runs the admission loop
over the returned job list. -/
def poll (maxJobs : Nat) (s : PollState) (jobs : List AvailableJob) : PollState :=
  if s.isRunning then
    if s.healthy then
      if maxJobs ≤ s.active.length then s
      else { s with active := admitLoop maxJobs s.failed jobs s.active }
    else s
  else s

/-- The admission-decision trace of one poll invocation (empty when poll is
a no-op). -/
def pollTrace (maxJobs : Nat) (s : PollState) (jobs : List AvailableJob) : List Nat :=
  if s.isRunning then
    if s.healthy then
      if maxJobs ≤ s.active.length then []
      else admitTrace maxJobs s.failed jobs s.active
    else []
  else []

end Bridge

namespace PoolMgr

/-
lib/pool-manager.js lines 51-165, PoolManager.processJob: the per-job
pipeline timeout (step "Wait for Pool to finish concat + mux", lines
125-136) and the progress weighting (lines 59, 78, 83, 88, 116-122, 140,
150).
-/

structure PMConfig where
  segmentTimeoutMs : Option Nat
  jobTimeoutMs : Nat
  deriving DecidableEq

/-- pool-manager.js lines 128-130: this.config.segmentTimeoutMs || 600000
(JS falsy: an absent or zero value falls back to the default). -/
def effectiveSegmentTimeout (c : PMConfig) : Nat :=
  match c.segmentTimeoutMs with
  | some t => if t = 0 then 600000 else t
  | none => 600000

inductive PipelineError where
  | timedOut (ms : Nat)
  | notReady
  deriving DecidableEq

/-- Classification of a pipeline rejection as a timeout error. -/
def isTimeoutError : PipelineError → Bool
  | .timedOut _ => true
  | _ => false

/-- pool-manager.js lines 125-136: the race between the segment-timeout
timer and the "finalized" event.  finalizedAt gives the arrival time of
the signal relative to the start of the wait (none when it never
arrives); the timer rejects at the effective segment timeout. -/
def awaitFinalized (c : PMConfig) (finalizedAt : Option Nat) (drivePath : String) :
    Except PipelineError String :=
  match finalizedAt with
  | some t =>
    if t < effectiveSegmentTimeout c then Except.ok drivePath
    else Except.error (PipelineError.timedOut (effectiveSegmentTimeout c))
  | none => Except.error (PipelineError.timedOut (effectiveSegmentTimeout c))

/-- pool-manager.js lines 117-120: the progress percentage synthesized from
segment completion, 10 + floor(done / total * 75), capped at 85. -/
def segProgressPct (total done : Nat) : Nat :=
  min (10 + done * 75 / total) 85

/-- The full sequence of onProgress values of a successful processJob run:
0 at submit (line 59), 2 after metadata (line 78), 8 after segmentation
(line 83), 10 after demux (line 88), one synthesized value per poll tick
of the 2s interval during distributed execution (lines 116-122, emitted
only when the pool has segments), 95 once the finalized artifact is
located (line 140) and 100 on handoff (line 150).  snaps lists the
pool.segmentsComplete.length values seen by the interval ticks. -/
def progressEvents (total : Nat) (snaps : List Nat) : List Nat :=
  [0, 2, 8, 10]
    ++ (if 0 < total then snaps.map (segProgressPct total) else [])
    ++ [95, 100]

end PoolMgr

namespace ResultAsm

/-
lib/result-assembler.js lines 6-41: probeFile and prepareResult.

Filesystem state and the ffprobe outcome enter as explicit parameters:
readable is whether fs.promises.access(outputPath, R_OK) succeeds (false
covers both a missing and an unreadable file), size is the stat size,
and ProbeOutcome is what the ffprobe callback delivers.
-/

structure ArtifactView where
  readable : Bool
  size : Nat
  deriving DecidableEq

inductive ProbeOutcome where
  | probeErr (msg : String)
  | metadataStreams (n : Nat)
  deriving DecidableEq

inductive AsmError where
  | outputMissing (p : String)
  | outputEmpty (p : String)
  | probeFailed (msg : String)
  | noStreams (p : String)
  deriving DecidableEq

structure ResultDescriptor where
  videoFilePath : String
  type : String
  deriving DecidableEq

/-- result-assembler.js lines 6-17: probeFile rejects when ffprobe errors
and when the probe metadata carries no streams. -/
def probeFile (p : String) (po : ProbeOutcome) : Except AsmError Nat :=
  match po with
  | .probeErr m => Except.error (AsmError.probeFailed m)
  | .metadataStreams n =>
    if n = 0 then Except.error (AsmError.noStreams p) else Except.ok n

/-- result-assembler.js lines 19-41: prepareResult checks readability, then
a non-zero size, then the probe, and classifies the descriptor from the
workflow type ("vod-hls" gives type "hls", anything else "web-video"). -/
def prepareResult (art : ArtifactView) (po : ProbeOutcome)
    (outputPath workflowType : String) : Except AsmError ResultDescriptor :=
  if ! art.readable then Except.error (AsmError.outputMissing outputPath)
  else if art.size = 0 then Except.error (AsmError.outputEmpty outputPath)
  else
    match probeFile outputPath po with
    | Except.error e => Except.error e
    | Except.ok _ =>
      if workflowType = "vod-hls" then
        Except.ok ⟨outputPath, "hls"⟩
      else
        Except.ok ⟨outputPath, "web-video"⟩

end ResultAsm

namespace Runner

/-
lib/runner-client.js: the per-job token table (jobTokens Map) and the
operations updateJob (lines 121-143), postSuccess (145-175), postError
(177-202) and abortJob (204-228).  Each operation resolves the token via
_jobToken (lines 22-26) while building the request, before any fetch, so
a missing token throws with zero network calls.  Only a successful
postSuccess / postError / abortJob deletes the token; updateJob never
does, and a non-ok response leaves the token in place.
-/

structure RCState where
  jobTokens : List (String × String)
  deriving DecidableEq

inductive RCError where
  | noJobToken (uuid : String)
  | httpFailed
  deriving DecidableEq

structure CallResult where
  state : RCState
  fetches : Nat
  outcome : Except RCError Unit

/-- runner-client.js lines 22-26: _jobToken. -/
def jobToken (s : RCState) (u : String) : Option String :=
  lookupKey s.jobTokens u

/-- runner-client.js lines 121-143: updateJob.  The token is read while the
request body is built; the token is never deleted. -/
def updateJob (s : RCState) (u : String) (resOk : Bool) : CallResult :=
  match jobToken s u with
  | none => ⟨s, 0, Except.error (RCError.noJobToken u)⟩
  | some _ =>
    if resOk then ⟨s, 1, Except.ok ()⟩
    else ⟨s, 1, Except.error RCError.httpFailed⟩

/-- runner-client.js lines 145-175: postSuccess deletes the token only after
an ok response. -/
def postSuccess (s : RCState) (u : String) (resOk : Bool) : CallResult :=
  match jobToken s u with
  | none => ⟨s, 0, Except.error (RCError.noJobToken u)⟩
  | some _ =>
    if resOk then ⟨⟨eraseKey s.jobTokens u⟩, 1, Except.ok ()⟩
    else ⟨s, 1, Except.error RCError.httpFailed⟩

/-- runner-client.js lines 177-202: postError deletes the token only after
an ok response. -/
def postError (s : RCState) (u : String) (resOk : Bool) : CallResult :=
  match jobToken s u with
  | none => ⟨s, 0, Except.error (RCError.noJobToken u)⟩
  | some _ =>
    if resOk then ⟨⟨eraseKey s.jobTokens u⟩, 1, Except.ok ()⟩
    else ⟨s, 1, Except.error RCError.httpFailed⟩

/-- runner-client.js lines 204-228: abortJob deletes the token only after an
ok response. -/
def abortJob (s : RCState) (u : String) (resOk : Bool) : CallResult :=
  match jobToken s u with
  | none => ⟨s, 0, Except.error (RCError.noJobToken u)⟩
  | some _ =>
    if resOk then ⟨⟨eraseKey s.jobTokens u⟩, 1, Except.ok ()⟩
    else ⟨s, 1, Except.error RCError.httpFailed⟩

end Runner

namespace Shutdown

/-
lib/health.js lines 125-170, gracefulShutdown.

The body is one try/finally with NO catch: only the per-job postError
calls (lines 141-149) and the unregister call (lines 159-164) sit inside
their own try/catch.  monitor.stop(), poolManager.destroy() and
watchdog.clearAll() are unguarded, so a rejection there propagates out
of gracefulShutdown and the remaining steps never run.  The FailurePlan
injects which calls fail; attempted records the steps that were started,
raised whether gracefulShutdown itself rejects.
-/

inductive SStep where
  | stopMonitor
  | reportJob (uuid : String)
  | destroyPool
  | clearWatchdogs
  | unregisterRunner
  deriving DecidableEq

structure FailurePlan where
  stopMonitorFails : Bool
  reportFails : List String
  destroyFails : Bool
  clearFails : Bool
  unregisterFails : Bool
  deriving DecidableEq

structure ShutdownRun where
  attempted : List SStep
  raised : Bool
  deriving DecidableEq

/-- health.js lines 140-150: one postError per active job holding a token;
each is wrapped in try/catch, so a failing report is logged and the loop
continues (reportFails does not alter control flow). -/
def reportSteps (activeJobs tokens : List String) : List SStep :=
  (activeJobs.filter (fun u => tokens.contains u)).map SStep.reportJob

/-- health.js lines 125-170: the shutdown sequence with injected failures. -/
def gracefulShutdown (p : FailurePlan) (activeJobs tokens : List String) : ShutdownRun :=
  if p.stopMonitorFails then
    ⟨[SStep.stopMonitor], true⟩
  else
    let reports := reportSteps activeJobs tokens
    if p.destroyFails then
      ⟨SStep.stopMonitor :: reports ++ [SStep.destroyPool], true⟩
    else if p.clearFails then
      ⟨SStep.stopMonitor :: reports ++ [SStep.destroyPool, SStep.clearWatchdogs], true⟩
    else
      ⟨SStep.stopMonitor :: reports
        ++ [SStep.destroyPool, SStep.clearWatchdogs, SStep.unregisterRunner], false⟩

end Shutdown

namespace ProcessJob

/-
lib/bridge.js (src/unnamed/part_003) lines 120-185, Bridge.processJob,
with the resource behaviour of PoolManager.processJob
(lib/pool-manager.js lines 51-165) inlined at stage pipeline.

Stage names follow the numbered steps of processJob; failAt is the first
stage that throws (none = the run succeeds).  Resource facts derived
from pool-manager.js and used below:
  - its processJob calls fs.promises.mkdtemp first thing, so the
    pipeline temp workspace exists as soon as the stage is entered;
  - its finally block (lines 161-164) destroys the pool and deletes the
    jobKey from poolManager.activeJobs on success AND on failure, but
    never removes that temp dir (on success the comment at line 153 says
    the temp is kept for the caller);
  - cancelJob (lines 167-178) removes the temp dir only when the jobKey
    is still present in poolManager.activeJobs.
-/

inductive Stage where
  | translate
  | download
  | pipeline
  | prepare
  | upload
  deriving DecidableEq

structure Effects where
  posted : Bool
  markedFailed : Bool
  cancelCalled : Bool
  watchdogClearCalled : Bool
  downloadTempCreated : Bool
  downloadTempRemoved : Bool
  poolTempCreated : Bool
  poolTempRemoved : Bool
  succeeded : Bool
  deriving DecidableEq

/-- bridge.js lines 120-185 with pool-manager.js resource handling. -/
def run (failAt : Option Stage) : Effects :=
  -- stage reachability along the sequential body
  let downloadTempCreated : Bool := decide (failAt ≠ some Stage.translate)
  let pipelineEntered : Bool :=
    downloadTempCreated && decide (failAt ≠ some Stage.download)
  let pipelineOk : Bool := pipelineEntered && decide (failAt ≠ some Stage.pipeline)
  -- pool-manager.js: temp dir made on entry; activeJobs entry deleted in
  -- its finally on every path, so after the stage the key is absent
  let poolTempCreated := pipelineEntered
  let pmEntryAfterPipeline : Bool := false
  -- bridge.js line 160: poolTempDir is assigned only from a successful result
  let poolTempDirVar := pipelineOk
  let jobFailed := failAt.isSome
  -- bridge.js lines 169-179, the catch block
  let posted := jobFailed
  let markedFailed := jobFailed
  let cancelCalled := jobFailed
  -- pool-manager.js cancelJob removes the temp only if the entry survives
  let cancelRemovedPoolTemp := cancelCalled && pmEntryAfterPipeline
  -- bridge.js line 168 (success) and line 178 (failure) both clear the watchdog
  let watchdogClearCalled := true
  -- bridge.js lines 180-184, the finally block
  let downloadTempRemoved := downloadTempCreated
  let poolTempRemovedFinally := poolTempDirVar
  { posted := posted
  , markedFailed := markedFailed
  , cancelCalled := cancelCalled
  , watchdogClearCalled := watchdogClearCalled
  , downloadTempCreated := downloadTempCreated
  , downloadTempRemoved := downloadTempRemoved
  , poolTempCreated := poolTempCreated
  , poolTempRemoved := cancelRemovedPoolTemp || poolTempRemovedFinally
  , succeeded := failAt.isNone }

end ProcessJob

namespace Occupancy

/-
lib/bridge.js (src/unnamed/part_003) lines 120-185 again, projected onto
the two id collections of claim C4: bridge.activeJobs (a Map keyed by
uuid) and bridge.failedJobs (a Set).  The trace lists the value of that
pair after every mutation of either collection during one processJob
run: the activeJobs.set at line 121, then on the failure path the
failedJobs.add at line 177 (which runs while the id is still active),
and finally the activeJobs.delete at line 181.
-/

structure OccState where
  active : List String
  failed : List String
  deriving DecidableEq

/-- States of (activeJobs, failedJobs) after each mutation in one
processJob run; fails says whether the run takes the catch path. -/
def processTrace (fails : Bool) (s0 : OccState) (u : String) : List OccState :=
  let s1 : OccState := ⟨addId s0.active u, s0.failed⟩
  if fails then
    let s2 : OccState := ⟨s1.active, addId s1.failed u⟩
    let s3 : OccState := ⟨removeId s2.active u, s2.failed⟩
    [s1, s2, s3]
  else
    let s3 : OccState := ⟨removeId s1.active u, s1.failed⟩
    [s1, s3]

end Occupancy

/-! Helper lemmas about the list embeddings of JS Maps and Sets. -/

theorem lookupKey_eraseKey {α : Type} (m : List (String × α)) (u : String) :
    lookupKey (eraseKey m u) u = none := by
  induction m with
  | nil => rfl
  | cons p rest ih =>
    obtain ⟨k, v⟩ := p
    by_cases h : k = u
    · simp [eraseKey, h, ih]
    · simp [eraseKey, lookupKey, h, ih]

theorem mem_addId (l : List String) (u x : String) : x ∈ addId l u ↔ x = u ∨ x ∈ l := by
  unfold addId
  by_cases h : u ∈ l
  · rw [if_pos h]
    constructor
    · exact Or.inr
    · rintro (rfl | hx)
      · exact h
      · exact hx
  · rw [if_neg h]
    exact List.mem_cons

theorem mem_removeId (l : List String) (u x : String) :
    x ∈ removeId l u ↔ x ∈ l ∧ x ≠ u := by
  induction l with
  | nil => simp [removeId]
  | cons y rest ih =>
    by_cases h : y = u
    · subst h
      simp only [removeId, if_pos rfl, ih, List.mem_cons]
      tauto
    · simp only [removeId, if_neg h, ih, List.mem_cons]
      constructor
      · rintro (rfl | ⟨hx, hxu⟩)
        · exact ⟨Or.inl rfl, h⟩
        · exact ⟨Or.inr hx, hxu⟩
      · rintro ⟨rfl | hx, hxu⟩
        · exact Or.inl rfl
        · exact Or.inr ⟨hx, hxu⟩

theorem not_mem_removeId (l : List String) (u : String) : u ∉ removeId l u := by
  intro h
  exact ((mem_removeId l u u).mp h).2 rfl

/-! Claim C1. -/

/-- Claim C1: the spec says a watch on an id that already has an entry
implicitly replaces (cancels) the existing timer, so at most one watchdog
timer exists per id.  The code contradicts this: watch overwrites the Map
entry but never calls clearTimeout on the old timer, so after two watch
calls on the same id two live timers target it, and a subsequent clear
cancels only the most recent one, leaving the stale timer to fire. -/
theorem c1_watch_stacks_timers :
    Watchdog.timersFor (Watchdog.watch (Watchdog.watch Watchdog.initial "j") "j") "j" = 2
    ∧ Watchdog.timersFor
        (Watchdog.clear (Watchdog.watch (Watchdog.watch Watchdog.initial "j") "j") "j") "j" = 1 := by
  exact ⟨rfl, rfl⟩

/-! Claim C5. -/

theorem recordFailure_fst_failures (s : Health.MonitorState) :
    (Health.recordFailure s).1.consecutiveFailures = s.consecutiveFailures + 1 := by
  simp only [Health.recordFailure]
  split <;> rfl

theorem recordFailure_fst_max (s : Health.MonitorState) :
    (Health.recordFailure s).1.maxConsecutiveFailures = s.maxConsecutiveFailures := by
  simp only [Health.recordFailure]
  split <;> rfl

theorem recordFailure_fst_healthy (s : Health.MonitorState) :
    (Health.recordFailure s).1.healthy
      = if s.maxConsecutiveFailures ≤ s.consecutiveFailures + 1 then false else s.healthy := by
  simp only [Health.recordFailure]
  split <;> simp_all

theorem recordFailure_snd (s : Health.MonitorState) :
    (Health.recordFailure s).2
      = decide (s.maxConsecutiveFailures ≤ s.consecutiveFailures + 1) := by
  simp only [Health.recordFailure]
  split <;> simp_all

theorem failN_failures (m n : Nat) :
    (Health.failN ⟨m, 0, true⟩ n).consecutiveFailures = n := by
  induction n with
  | zero => rfl
  | succ n ih => simp [Health.failN, recordFailure_fst_failures, ih]

theorem failN_max (m n : Nat) :
    (Health.failN ⟨m, 0, true⟩ n).maxConsecutiveFailures = m := by
  induction n with
  | zero => rfl
  | succ n ih => simp [Health.failN, recordFailure_fst_max, ih]

theorem failN_healthy (m n : Nat) (hm : 1 ≤ m) :
    (Health.failN ⟨m, 0, true⟩ n).healthy = decide (n < m) := by
  induction n with
  | zero => exact (decide_eq_true hm).symm
  | succ n ih =>
    rw [Health.failN, recordFailure_fst_healthy, failN_failures, failN_max, ih]
    by_cases h : m ≤ n + 1
    · rw [if_pos h]
      exact (decide_eq_false (by omega)).symm
    · rw [if_neg h, decide_eq_true (by omega : n < m), decide_eq_true (by omega : n + 1 < m)]

/-- Claim C5: with threshold m (always at least 1 in the code because of
the || 5 default), exactly m consecutive failed probe cycles drive
isHealthy to false and no smaller streak does; one successful probe
resets the streak to 0 and restores isHealthy from any state; and a
failed cycle emits the "unhealthy" notification exactly when the streak
it produces is at or above the threshold, hence on every cycle past the
threshold and not only on the transition edge. -/
theorem c5_health_monitor (m n k : Nat) (hm : 1 ≤ m) (hk : k < m) :
    (Health.failN ⟨m, 0, true⟩ m).healthy = false
    ∧ (Health.failN ⟨m, 0, true⟩ k).healthy = true
    ∧ (∀ s : Health.MonitorState,
        (Health.check s true).1.consecutiveFailures = 0 ∧ (Health.check s true).1.healthy = true)
    ∧ (Health.check (Health.failN ⟨m, 0, true⟩ n) false).2 = decide (m ≤ n + 1) := by
  refine ⟨?_, ?_, fun s => ⟨rfl, rfl⟩, ?_⟩
  · rw [failN_healthy m m hm]
    exact decide_eq_false (by omega)
  · rw [failN_healthy m k hm]
    exact decide_eq_true hk
  · show (Health.recordFailure _).2 = _
    rw [recordFailure_snd, failN_failures, failN_max]

/-- Witness for C5 at threshold 5: healthy is still true after 4 failed
cycles, false after the 5th, a success resets, and the 6th consecutive
failed cycle still emits the notification. -/
theorem c5_health_monitor_witness :
    (Health.failN ⟨5, 0, true⟩ 5).healthy = false
    ∧ (Health.failN ⟨5, 0, true⟩ 4).healthy = true
    ∧ (Health.check ⟨5, 5, false⟩ true).1.consecutiveFailures = 0
    ∧ (Health.check ⟨5, 5, false⟩ true).1.healthy = true
    ∧ (Health.check (Health.failN ⟨5, 0, true⟩ 5) false).2 = true := by
  have h := c5_health_monitor 5 5 4 (by decide) (by decide)
  refine ⟨h.1, h.2.1, (h.2.2.1 ⟨5, 5, false⟩).1, (h.2.2.1 ⟨5, 5, false⟩).2, ?_⟩
  rw [h.2.2.2]
  decide

/-! Claim C6. -/

/-- Claim C6: when the "finalized" signal never arrives, or arrives only at
or after the effective segment timeout, PoolManager.processJob rejects
with a timeout-classified error carrying that deadline; the deadline
comes from segmentTimeoutMs (default 600000) and is independent of the
overall job timeout jobTimeoutMs used by the watchdog. -/
theorem c6_pipeline_timeout (c : PoolMgr.PMConfig) (path : String) :
    (PoolMgr.awaitFinalized c none path
        = Except.error (PoolMgr.PipelineError.timedOut (PoolMgr.effectiveSegmentTimeout c)))
    ∧ (∀ t, PoolMgr.effectiveSegmentTimeout c ≤ t →
        PoolMgr.awaitFinalized c (some t) path
          = Except.error (PoolMgr.PipelineError.timedOut (PoolMgr.effectiveSegmentTimeout c)))
    ∧ PoolMgr.isTimeoutError (PoolMgr.PipelineError.timedOut (PoolMgr.effectiveSegmentTimeout c)) = true
    ∧ (∀ (sTo : Option Nat) (j1 j2 : Nat),
        PoolMgr.effectiveSegmentTimeout ⟨sTo, j1⟩ = PoolMgr.effectiveSegmentTimeout ⟨sTo, j2⟩) := by
  refine ⟨rfl, ?_, rfl, ?_⟩
  · intro t h
    simp only [PoolMgr.awaitFinalized]
    rw [if_neg (Nat.not_lt.mpr h)]
  · intro sTo j1 j2
    cases sTo <;> rfl

/-- Witness for C6: with segmentTimeoutMs 1000 and a finalized signal at
1000, processJob rejects with the timeout error, whatever jobTimeoutMs is. -/
theorem c6_pipeline_timeout_witness :
    PoolMgr.awaitFinalized ⟨some 1000, 3600000⟩ (some 1000) "out"
        = Except.error (PoolMgr.PipelineError.timedOut 1000)
    ∧ PoolMgr.effectiveSegmentTimeout ⟨some 1000, 3600000⟩
        = PoolMgr.effectiveSegmentTimeout ⟨some 1000, 7200000⟩ := by
  have h := c6_pipeline_timeout ⟨some 1000, 3600000⟩ "out"
  exact ⟨h.2.1 1000 (by decide), h.2.2.2 (some 1000) 3600000 7200000⟩

/-! Claim C8. -/

/-- Claim C8: prepareResult fails when the artifact is unreadable or
missing, when it is zero-length, when ffprobe errors, and when the probe
finds zero streams; otherwise it returns a descriptor whose
classification follows the workflow type: "vod-hls" gives the
segmented-stream type "hls" and every other supported type the
single-file type "web-video". -/
theorem c8_prepare_result (art : ResultAsm.ArtifactView) (po : ResultAsm.ProbeOutcome)
    (pathS wt : String) :
    (art.readable = false →
      ResultAsm.prepareResult art po pathS wt = Except.error (ResultAsm.AsmError.outputMissing pathS))
    ∧ (art.readable = true → art.size = 0 →
      ResultAsm.prepareResult art po pathS wt = Except.error (ResultAsm.AsmError.outputEmpty pathS))
    ∧ (art.readable = true → art.size ≠ 0 → ∀ msg, po = ResultAsm.ProbeOutcome.probeErr msg →
      ResultAsm.prepareResult art po pathS wt = Except.error (ResultAsm.AsmError.probeFailed msg))
    ∧ (art.readable = true → art.size ≠ 0 → po = ResultAsm.ProbeOutcome.metadataStreams 0 →
      ResultAsm.prepareResult art po pathS wt = Except.error (ResultAsm.AsmError.noStreams pathS))
    ∧ (art.readable = true → art.size ≠ 0 → ∀ nStr, po = ResultAsm.ProbeOutcome.metadataStreams (nStr + 1) →
      ResultAsm.prepareResult art po pathS wt
        = Except.ok ⟨pathS, if wt = "vod-hls" then "hls" else "web-video"⟩) := by
  refine ⟨?_, ?_, ?_, ?_, ?_⟩
  · intro h
    simp [ResultAsm.prepareResult, h]
  · intro h hz
    simp [ResultAsm.prepareResult, h, hz]
  · intro h hz msg hpo
    subst hpo
    simp [ResultAsm.prepareResult, ResultAsm.probeFile, h, hz]
  · intro h hz hpo
    subst hpo
    simp [ResultAsm.prepareResult, ResultAsm.probeFile, h, hz]
  · intro h hz nStr hpo
    subst hpo
    simp only [ResultAsm.prepareResult, ResultAsm.probeFile, h, hz]
    by_cases hw : wt = "vod-hls" <;> simp [hw]

/-- Witness for C8: a readable, non-empty artifact probing two streams is
classified "hls" for workflow type "vod-hls"; a zero-length artifact is
rejected. -/
theorem c8_prepare_result_witness :
    ResultAsm.prepareResult ⟨true, 42⟩ (ResultAsm.ProbeOutcome.metadataStreams 2) "out.mp4" "vod-hls"
        = Except.ok ⟨"out.mp4", "hls"⟩
    ∧ ResultAsm.prepareResult ⟨true, 0⟩ (ResultAsm.ProbeOutcome.metadataStreams 2) "out.mp4" "vod-web"
        = Except.error (ResultAsm.AsmError.outputEmpty "out.mp4") := by
  constructor
  · have h := (c8_prepare_result ⟨true, 42⟩ (ResultAsm.ProbeOutcome.metadataStreams 2)
      "out.mp4" "vod-hls").2.2.2.2 rfl (by decide) 1 rfl
    rw [h]
    rfl
  · exact (c8_prepare_result ⟨true, 0⟩ (ResultAsm.ProbeOutcome.metadataStreams 2)
      "out.mp4" "vod-web").2.1 rfl rfl

/-! Claim C9. -/

/-- Claim C9 counterexample: the claim says the failure of any individual
shutdown step is logged and does not abort the subsequent steps.  In the
code only the per-job reports and the unregister call are guarded; a
rejection of poolManager.destroy() propagates, so with destroyFails the
watchdog-clearing and unregister steps are never attempted and
gracefulShutdown itself rejects. -/
theorem c9_destroy_failure_aborts :
    Shutdown.gracefulShutdown ⟨false, [], true, false, false⟩ [] []
        = ⟨[Shutdown.SStep.stopMonitor, Shutdown.SStep.destroyPool], true⟩
    ∧ Shutdown.SStep.clearWatchdogs
        ∉ (Shutdown.gracefulShutdown ⟨false, [], true, false, false⟩ [] []).attempted
    ∧ Shutdown.SStep.unregisterRunner
        ∉ (Shutdown.gracefulShutdown ⟨false, [], true, false, false⟩ [] []).attempted := by
  refine ⟨rfl, ?_, ?_⟩ <;> decide

/-- Claim C9 as amended: the steps run in exactly the stated order, and the
failures of the per-job upstream reports and of the unregister call are
caught and do not abort subsequent steps; but a failure while destroying
the pipeline adapter propagates and aborts the remaining steps (the
unguarded monitor-stop and watchdog-clear calls are timer bookkeeping
that does not reject). -/
theorem c9_shutdown_amended (p : Shutdown.FailurePlan) (activeJobs tokens : List String)
    (h1 : p.stopMonitorFails = false) :
    (p.destroyFails = false → p.clearFails = false →
      Shutdown.gracefulShutdown p activeJobs tokens
        = ⟨Shutdown.SStep.stopMonitor :: Shutdown.reportSteps activeJobs tokens
            ++ [Shutdown.SStep.destroyPool, Shutdown.SStep.clearWatchdogs,
                Shutdown.SStep.unregisterRunner], false⟩)
    ∧ (p.destroyFails = true →
      Shutdown.gracefulShutdown p activeJobs tokens
        = ⟨Shutdown.SStep.stopMonitor :: Shutdown.reportSteps activeJobs tokens
            ++ [Shutdown.SStep.destroyPool], true⟩) := by
  constructor
  · intro h2 h3
    simp [Shutdown.gracefulShutdown, h1, h2, h3]
  · intro h2
    simp [Shutdown.gracefulShutdown, h1, h2]

/-- Witness for C9 as amended: with one active job "a" holding a token, one
job "b" without a token, a failing report for "a" and a failing
unregister call, all five steps are still attempted in order and the
shutdown completes. -/
theorem c9_shutdown_amended_witness :
    Shutdown.gracefulShutdown ⟨false, ["a"], false, false, true⟩ ["a", "b"] ["a"]
      = ⟨[Shutdown.SStep.stopMonitor, Shutdown.SStep.reportJob "a", Shutdown.SStep.destroyPool,
          Shutdown.SStep.clearWatchdogs, Shutdown.SStep.unregisterRunner], false⟩ := by
  have h := (c9_shutdown_amended ⟨false, ["a"], false, false, true⟩ ["a", "b"] ["a"] rfl).1 rfl rfl
  rw [h]
  rfl

/-! Claim C10. -/

/-- Claim C10: a successful postSuccess, postError or abortJob deletes the
stored per-job token; once the token is gone, every updateJob,
postSuccess, postError or abortJob for that id throws the no-job-token
error while building the request, with zero network calls and an
unchanged token table — so at most one terminal report per accepted job
ever succeeds, and in particular a second postError after a successful
one (the watchdog-timeout report followed by the failure-path report)
fails. -/
theorem c10_job_token_single_use (s : Runner.RCState) (u : String) :
    (∀ tok, Runner.jobToken s u = some tok →
      Runner.jobToken (Runner.postSuccess s u true).state u = none
      ∧ Runner.jobToken (Runner.postError s u true).state u = none
      ∧ Runner.jobToken (Runner.abortJob s u true).state u = none)
    ∧ (Runner.jobToken s u = none → ∀ r : Bool,
      Runner.updateJob s u r = ⟨s, 0, Except.error (Runner.RCError.noJobToken u)⟩
      ∧ Runner.postSuccess s u r = ⟨s, 0, Except.error (Runner.RCError.noJobToken u)⟩
      ∧ Runner.postError s u r = ⟨s, 0, Except.error (Runner.RCError.noJobToken u)⟩
      ∧ Runner.abortJob s u r = ⟨s, 0, Except.error (Runner.RCError.noJobToken u)⟩)
    ∧ (∀ tok, Runner.jobToken s u = some tok → ∀ r : Bool,
      Runner.postError (Runner.postError s u true).state u r
        = ⟨(Runner.postError s u true).state, 0, Except.error (Runner.RCError.noJobToken u)⟩) := by
  have hdel : ∀ tok, Runner.jobToken s u = some tok →
      (Runner.postSuccess s u true).state = ⟨eraseKey s.jobTokens u⟩
      ∧ (Runner.postError s u true).state = ⟨eraseKey s.jobTokens u⟩
      ∧ (Runner.abortJob s u true).state = ⟨eraseKey s.jobTokens u⟩ := by
    intro tok h
    refine ⟨?_, ?_, ?_⟩ <;>
      simp [Runner.postSuccess, Runner.postError, Runner.abortJob, h]
  have hnone : ∀ m : Runner.RCState, Runner.jobToken m u = none → ∀ r : Bool,
      Runner.updateJob m u r = ⟨m, 0, Except.error (Runner.RCError.noJobToken u)⟩
      ∧ Runner.postSuccess m u r = ⟨m, 0, Except.error (Runner.RCError.noJobToken u)⟩
      ∧ Runner.postError m u r = ⟨m, 0, Except.error (Runner.RCError.noJobToken u)⟩
      ∧ Runner.abortJob m u r = ⟨m, 0, Except.error (Runner.RCError.noJobToken u)⟩ := by
    intro m h r
    refine ⟨?_, ?_, ?_, ?_⟩ <;>
      simp [Runner.updateJob, Runner.postSuccess, Runner.postError, Runner.abortJob, h]
  refine ⟨?_, hnone s, ?_⟩
  · intro tok h
    obtain ⟨e1, e2, e3⟩ := hdel tok h
    rw [e1, e2, e3]
    exact ⟨lookupKey_eraseKey s.jobTokens u, lookupKey_eraseKey s.jobTokens u,
      lookupKey_eraseKey s.jobTokens u⟩
  · intro tok h r
    obtain ⟨_, e2, _⟩ := hdel tok h
    have hn : Runner.jobToken (Runner.postError s u true).state u = none := by
      rw [e2]
      exact lookupKey_eraseKey s.jobTokens u
    exact (hnone _ hn r).2.2.1

/-- Witness for C10: with one stored token for job "j", a successful
postError deletes it and a second postError fails with the no-job-token
error, making no network call. -/
theorem c10_job_token_single_use_witness :
    Runner.jobToken (Runner.postError ⟨[("j", "tok")]⟩ "j" true).state "j" = none
    ∧ Runner.postError (Runner.postError ⟨[("j", "tok")]⟩ "j" true).state "j" true
        = ⟨(Runner.postError ⟨[("j", "tok")]⟩ "j" true).state, 0,
           Except.error (Runner.RCError.noJobToken "j")⟩
    ∧ Runner.updateJob ⟨[]⟩ "j" true = ⟨⟨[]⟩, 0, Except.error (Runner.RCError.noJobToken "j")⟩ := by
  have h := c10_job_token_single_use ⟨[("j", "tok")]⟩ "j"
  have h0 := c10_job_token_single_use ⟨[]⟩ "j"
  exact ⟨(h.1 "tok" rfl).2.1, h.2.2 "tok" rfl true, (h0.2.1 rfl true).1⟩

/-! Claim C3. -/

/-- Claim C3 counterexample: when the pipeline stage itself fails, the
failure handling runs but the pipeline-stage temp workspace is NOT
removed: PoolManager.processJob has already deleted the job from its
activeJobs in its finally block (so the cancelJob call in the catch
removes nothing) and it never removes its temp dir itself, while the
poolTempDir variable of Bridge.processJob is only assigned from a
successful result, so the finally block skips it too.  This refutes the
claim that the temp workspaces of both stages are removed regardless of
success or failure. -/
theorem c3_pipeline_temp_not_removed :
    (ProcessJob.run (some ProcessJob.Stage.pipeline)).poolTempCreated = true
    ∧ (ProcessJob.run (some ProcessJob.Stage.pipeline)).poolTempRemoved = false
    ∧ (ProcessJob.run (some ProcessJob.Stage.pipeline)).posted = true
    ∧ (ProcessJob.run (some ProcessJob.Stage.pipeline)).succeeded = false := by
  exact ⟨rfl, rfl, rfl, rfl⟩

/-- Claim C3 as amended: a failure at any stage attempts the error report,
adds the id to the failed set, attempts the pipeline cancel and clears
the watchdog; the finally step always removes the download-stage temp
workspace whenever it was created, and removes the pipeline-stage temp
workspace whenever the pipeline stage returned successfully — but when
the pipeline stage itself fails, its temp workspace is not removed. -/
theorem c3_cleanup_amended (failAt : Option ProcessJob.Stage) :
    (failAt.isSome = true →
      (ProcessJob.run failAt).posted = true
      ∧ (ProcessJob.run failAt).markedFailed = true
      ∧ (ProcessJob.run failAt).cancelCalled = true
      ∧ (ProcessJob.run failAt).watchdogClearCalled = true)
    ∧ ((ProcessJob.run failAt).downloadTempCreated = true →
      (ProcessJob.run failAt).downloadTempRemoved = true)
    ∧ (failAt ≠ some ProcessJob.Stage.pipeline →
      (ProcessJob.run failAt).poolTempCreated = true →
      (ProcessJob.run failAt).poolTempRemoved = true)
    ∧ (failAt = some ProcessJob.Stage.pipeline →
      (ProcessJob.run failAt).poolTempRemoved = false) := by
  cases failAt with
  | none => decide
  | some st => cases st <;> decide

/-- Witness for C3 as amended: a failure in the upload stage reports the
error, marks the job failed and removes both temp workspaces. -/
theorem c3_cleanup_amended_witness :
    (ProcessJob.run (some ProcessJob.Stage.upload)).posted = true
    ∧ (ProcessJob.run (some ProcessJob.Stage.upload)).markedFailed = true
    ∧ (ProcessJob.run (some ProcessJob.Stage.upload)).downloadTempRemoved = true
    ∧ (ProcessJob.run (some ProcessJob.Stage.upload)).poolTempRemoved = true := by
  have h := c3_cleanup_amended (some ProcessJob.Stage.upload)
  exact ⟨(h.1 rfl).1, (h.1 rfl).2.1, h.2.1 rfl, h.2.2.1 (by decide) rfl⟩

/-! Claim C4. -/

/-- Claim C4 counterexample: in the failure path of Bridge.processJob the
id is added to failedJobs (line 177) while it is still in activeJobs
(deleted only in the finally block, line 181), so the trace of a failing
run reaches a state where the id is in both collections at once,
refuting "never both simultaneously". -/
theorem c4_transient_both :
    Occupancy.OccState.mk ["j"] ["j"] ∈ Occupancy.processTrace true ⟨[], []⟩ "j"
    ∧ "j" ∈ (Occupancy.OccState.mk ["j"] ["j"]).active
    ∧ "j" ∈ (Occupancy.OccState.mk ["j"] ["j"]).failed := by
  refine ⟨?_, ?_, ?_⟩ <;> decide

/-- Claim C4 as amended: a job id appears in at most one of the active-job
table and the failed-job set at every point except transiently during
its own failure handling — between the catch block adding it to the
failed set and the finally block removing it from the active table; in
particular every state of a successful run, and the final state of every
run, has the id in at most one of the two. -/
theorem c4_occupancy_amended (fails : Bool) (s0 : Occupancy.OccState) (u : String)
    (_ha : u ∉ s0.active) (hf : u ∉ s0.failed) :
    (∀ st ∈ Occupancy.processTrace fails s0 u,
      u ∈ st.active → u ∈ st.failed →
        fails = true ∧ st.active = addId s0.active u ∧ st.failed = addId s0.failed u)
    ∧ (∀ st, (Occupancy.processTrace fails s0 u).getLast? = some st →
        ¬ (u ∈ st.active ∧ u ∈ st.failed)) := by
  cases fails with
  | false =>
    have htr : Occupancy.processTrace false s0 u
        = [⟨addId s0.active u, s0.failed⟩,
           ⟨removeId (addId s0.active u) u, s0.failed⟩] := rfl
    constructor
    · intro st hst hact hfl
      rw [htr] at hst
      simp only [List.mem_cons, List.not_mem_nil, or_false] at hst
      rcases hst with rfl | rfl
      · exact absurd hfl hf
      · exact absurd hfl hf
    · intro st hst
      rw [htr] at hst
      have hlast : ([⟨addId s0.active u, s0.failed⟩,
          ⟨removeId (addId s0.active u) u, s0.failed⟩] : List Occupancy.OccState).getLast?
          = some ⟨removeId (addId s0.active u) u, s0.failed⟩ := rfl
      rw [hlast] at hst
      injection hst with h
      subst h
      rintro ⟨hact, _⟩
      exact not_mem_removeId _ u hact
  | true =>
    have htr : Occupancy.processTrace true s0 u
        = [⟨addId s0.active u, s0.failed⟩,
           ⟨addId s0.active u, addId s0.failed u⟩,
           ⟨removeId (addId s0.active u) u, addId s0.failed u⟩] := rfl
    constructor
    · intro st hst hact hfl
      rw [htr] at hst
      simp only [List.mem_cons, List.not_mem_nil, or_false] at hst
      rcases hst with rfl | rfl | rfl
      · exact absurd hfl hf
      · exact ⟨rfl, rfl, rfl⟩
      · exact absurd hact (not_mem_removeId _ u)
    · intro st hst
      rw [htr] at hst
      have hlast : ([⟨addId s0.active u, s0.failed⟩,
          ⟨addId s0.active u, addId s0.failed u⟩,
          ⟨removeId (addId s0.active u) u, addId s0.failed u⟩] : List Occupancy.OccState).getLast?
          = some ⟨removeId (addId s0.active u) u, addId s0.failed u⟩ := rfl
      rw [hlast] at hst
      injection hst with h
      subst h
      rintro ⟨hact, _⟩
      exact not_mem_removeId _ u hact

/-- Witness for C4 as amended: in a successful run of job "j" from an empty
state the final state has "j" in neither collection, and the only
both-states of a failing run are the failure-handling window. -/
theorem c4_occupancy_amended_witness :
    (∀ st, (Occupancy.processTrace false ⟨[], []⟩ "j").getLast? = some st →
      ¬ ("j" ∈ st.active ∧ "j" ∈ st.failed))
    ∧ (∀ st ∈ Occupancy.processTrace true ⟨[], []⟩ "j",
      "j" ∈ st.active → "j" ∈ st.failed →
        st.active = addId [] "j" ∧ st.failed = addId [] "j") := by
  have h1 := c4_occupancy_amended false ⟨[], []⟩ "j" (by decide) (by decide)
  have h2 := c4_occupancy_amended true ⟨[], []⟩ "j" (by decide) (by decide)
  exact ⟨h1.2, fun st hst hact hfl => ⟨(h2.1 st hst hact hfl).2.1, (h2.1 st hst hact hfl).2.2⟩⟩

/-! Claim C2. -/

theorem admitLoop_cons (maxJobs : Nat) (failed : List String) (j : Bridge.AvailableJob)
    (rest : List Bridge.AvailableJob) (active : List String) :
    Bridge.admitLoop maxJobs failed (j :: rest) active
      = if maxJobs ≤ active.length then active
        else if Bridge.isSupported j.type then
          if failed.contains j.uuid then Bridge.admitLoop maxJobs failed rest active
          else Bridge.admitLoop maxJobs failed rest (active ++ [j.uuid])
        else Bridge.admitLoop maxJobs failed rest active := rfl

theorem admitTrace_cons (maxJobs : Nat) (failed : List String) (j : Bridge.AvailableJob)
    (rest : List Bridge.AvailableJob) (active : List String) :
    Bridge.admitTrace maxJobs failed (j :: rest) active
      = if maxJobs ≤ active.length then []
        else if Bridge.isSupported j.type then
          if failed.contains j.uuid then Bridge.admitTrace maxJobs failed rest active
          else (active.length + 1) :: Bridge.admitTrace maxJobs failed rest (active ++ [j.uuid])
        else Bridge.admitTrace maxJobs failed rest active := rfl

theorem admitLoop_eq (maxJobs : Nat) (failed : List String) (jobs : List Bridge.AvailableJob) :
    ∀ active, Bridge.admitLoop maxJobs failed jobs active
      = active ++ ((jobs.filter (Bridge.eligible failed)).map
          Bridge.AvailableJob.uuid).take (maxJobs - active.length) := by
  induction jobs with
  | nil => intro active; simp [Bridge.admitLoop]
  | cons j rest ih =>
    intro active
    rw [admitLoop_cons]
    by_cases hcap : maxJobs ≤ active.length
    · have hz : maxJobs - active.length = 0 := by omega
      rw [if_pos hcap, hz]
      simp
    · rw [if_neg hcap]
      cases hsup : Bridge.isSupported j.type with
      | false =>
        have hel : Bridge.eligible failed j = false := by
          unfold Bridge.eligible
          rw [hsup, Bool.false_and]
        rw [if_neg Bool.false_ne_true, List.filter_cons, hel]
        simp only [Bool.false_eq_true, if_false]
        exact ih active
      | true =>
        cases hfl : failed.contains j.uuid with
        | true =>
          have hel : Bridge.eligible failed j = false := by
            unfold Bridge.eligible
            rw [hsup, hfl]
            rfl
          rw [if_pos rfl, if_pos rfl, List.filter_cons, hel]
          simp only [Bool.false_eq_true, if_false]
          exact ih active
        | false =>
          have hel : Bridge.eligible failed j = true := by
            unfold Bridge.eligible
            rw [hsup, hfl]
            rfl
          have hone : maxJobs - active.length = (maxJobs - (active.length + 1)) + 1 := by omega
          rw [if_pos rfl, if_neg Bool.false_ne_true, List.filter_cons, hel]
          simp only [if_true, List.map_cons]
          rw [ih (active ++ [j.uuid]), hone, List.take_succ_cons]
          simp [List.append_assoc]

theorem admitTrace_le (maxJobs : Nat) (failed : List String) (jobs : List Bridge.AvailableJob) :
    ∀ active, ∀ n ∈ Bridge.admitTrace maxJobs failed jobs active, n ≤ maxJobs := by
  induction jobs with
  | nil => intro active n hn; simp [Bridge.admitTrace] at hn
  | cons j rest ih =>
    intro active n hn
    rw [admitTrace_cons] at hn
    by_cases hcap : maxJobs ≤ active.length
    · rw [if_pos hcap] at hn
      simp at hn
    · rw [if_neg hcap] at hn
      cases hsup : Bridge.isSupported j.type with
      | false =>
        rw [hsup] at hn
        simp only [Bool.false_eq_true, if_false] at hn
        exact ih active n hn
      | true =>
        rw [hsup, if_pos rfl] at hn
        cases hfl : failed.contains j.uuid with
        | true =>
          rw [hfl, if_pos rfl] at hn
          exact ih active n hn
        | false =>
          rw [hfl] at hn
          simp only [Bool.false_eq_true, if_false, List.mem_cons] at hn
          rcases hn with rfl | hn
          · omega
          · exact ih (active ++ [j.uuid]) n hn

/-- Claim C2: within one poll invocation, poll is a no-op when not running,
when the health monitor is unhealthy, or when capacity is exhausted;
otherwise it admits exactly the eligible jobs (supported type, not
previously failed) in the order the queue returned them, truncated to
the remaining capacity, and the size of the active table immediately
after every admission decision is at most maxConcurrentJobs. -/
theorem c2_poll_admission (maxJobs : Nat) (s : Bridge.PollState)
    (jobs : List Bridge.AvailableJob) :
    (s.isRunning = false → Bridge.poll maxJobs s jobs = s)
    ∧ (s.healthy = false → Bridge.poll maxJobs s jobs = s)
    ∧ (maxJobs ≤ s.active.length → Bridge.poll maxJobs s jobs = s)
    ∧ (∀ n ∈ Bridge.pollTrace maxJobs s jobs, n ≤ maxJobs)
    ∧ (s.isRunning = true → s.healthy = true → s.active.length < maxJobs →
        (Bridge.poll maxJobs s jobs).active
          = s.active ++ ((jobs.filter (Bridge.eligible s.failed)).map
              Bridge.AvailableJob.uuid).take (maxJobs - s.active.length)) := by
  refine ⟨?_, ?_, ?_, ?_, ?_⟩
  · intro h
    simp [Bridge.poll, h]
  · intro h
    simp [Bridge.poll, h]
  · intro h
    cases hr : s.isRunning with
    | false => simp [Bridge.poll, hr]
    | true =>
      cases hh : s.healthy with
      | false => simp [Bridge.poll, hr, hh]
      | true => simp [Bridge.poll, hr, hh, if_pos h]
  · intro n hn
    rw [Bridge.pollTrace] at hn
    cases hr : s.isRunning with
    | false =>
      rw [hr] at hn
      simp at hn
    | true =>
      rw [hr, if_pos rfl] at hn
      cases hh : s.healthy with
      | false =>
        rw [hh] at hn
        simp at hn
      | true =>
        rw [hh, if_pos rfl] at hn
        by_cases hcap : maxJobs ≤ s.active.length
        · rw [if_pos hcap] at hn
          simp at hn
        · rw [if_neg hcap] at hn
          exact admitTrace_le maxJobs s.failed jobs s.active n hn
  · intro hr hh hcap
    rw [Bridge.poll, hr, if_pos rfl, hh, if_pos rfl, if_neg (Nat.not_le.mpr hcap)]
    exact admitLoop_eq maxJobs s.failed jobs s.active

/-- Witness for C2: with capacity 2, one slot already used, and a queue
returning an unsupported job, a previously failed job and two eligible
jobs, poll admits only the first eligible job, every admission decision
respects the bound, and the no-op guards hold on a stopped state. -/
theorem c2_poll_admission_witness :
    (Bridge.poll 2 ⟨true, true, ["a"], ["f"]⟩
        [⟨"f", "vod-hls-transcoding"⟩, ⟨"x", "live-rtmp-hls-transcoding"⟩,
         ⟨"u1", "vod-web-video-transcoding"⟩, ⟨"u2", "vod-hls-transcoding"⟩]).active
      = ["a", "u1"]
    ∧ (∀ n ∈ Bridge.pollTrace 2 ⟨true, true, ["a"], ["f"]⟩
        [⟨"f", "vod-hls-transcoding"⟩, ⟨"x", "live-rtmp-hls-transcoding"⟩,
         ⟨"u1", "vod-web-video-transcoding"⟩, ⟨"u2", "vod-hls-transcoding"⟩], n ≤ 2)
    ∧ Bridge.poll 2 ⟨false, true, [], []⟩ [⟨"u1", "vod-hls-transcoding"⟩]
        = ⟨false, true, [], []⟩ := by
  have h := c2_poll_admission 2 ⟨true, true, ["a"], ["f"]⟩
    [⟨"f", "vod-hls-transcoding"⟩, ⟨"x", "live-rtmp-hls-transcoding"⟩,
     ⟨"u1", "vod-web-video-transcoding"⟩, ⟨"u2", "vod-hls-transcoding"⟩]
  have h0 := c2_poll_admission 2 ⟨false, true, [], []⟩ [⟨"u1", "vod-hls-transcoding"⟩]
  refine ⟨?_, h.2.2.2.1, h0.1 rfl⟩
  rw [h.2.2.2.2 rfl rfl (by decide)]
  rfl

/-! Claim C7. -/

theorem segProgressPct_ge (total d : Nat) : 10 ≤ PoolMgr.segProgressPct total d :=
  le_min (Nat.le_add_right 10 _) (by omega)

theorem segProgressPct_le (total d : Nat) : PoolMgr.segProgressPct total d ≤ 85 :=
  min_le_right _ _

theorem segProgressPct_mono (total : Nat) {d e : Nat} (h : d ≤ e) :
    PoolMgr.segProgressPct total d ≤ PoolMgr.segProgressPct total e :=
  min_le_min
    (Nat.add_le_add_left (Nat.div_le_div_right (Nat.mul_le_mul_right 75 h)) 10)
    le_rfl

/-- Claim C7: for a successful run whose per-tick segment-completion counts
only grow, the delivered progress sequence follows the fixed weighting
(0, 2, 8, 10, the synthesized per-tick values, 95, 100), is
non-decreasing, starts at 0 and ends at 100, and every synthesized
per-tick value lies between 10 and 85. -/
theorem c7_progress_monotone (total : Nat) (snaps : List Nat)
    (hmono : List.Pairwise (fun a b => a ≤ b) snaps) :
    List.Pairwise (fun a b => a ≤ b) (PoolMgr.progressEvents total snaps)
    ∧ (PoolMgr.progressEvents total snaps).head? = some 0
    ∧ (PoolMgr.progressEvents total snaps).getLast? = some 100
    ∧ (∀ d, 10 ≤ PoolMgr.segProgressPct total d ∧ PoolMgr.segProgressPct total d ≤ 85) := by
  have hMmem : ∀ x ∈ (if 0 < total then snaps.map (PoolMgr.segProgressPct total) else []),
      10 ≤ x ∧ x ≤ 85 := by
    intro x hx
    by_cases ht : 0 < total
    · rw [if_pos ht] at hx
      obtain ⟨d, _, rfl⟩ := List.mem_map.mp hx
      exact ⟨segProgressPct_ge total d, segProgressPct_le total d⟩
    · rw [if_neg ht] at hx
      cases hx
  have hMpair : List.Pairwise (fun a b => a ≤ b)
      (if 0 < total then snaps.map (PoolMgr.segProgressPct total) else []) := by
    by_cases ht : 0 < total
    · rw [if_pos ht]
      exact hmono.map _ (fun a b hab => segProgressPct_mono total hab)
    · rw [if_neg ht]
      exact List.Pairwise.nil
  refine ⟨?_, rfl, ?_, fun d => ⟨segProgressPct_ge total d, segProgressPct_le total d⟩⟩
  · show List.Pairwise _
      (([0, 2, 8, 10] ++ (if 0 < total then snaps.map (PoolMgr.segProgressPct total) else []))
        ++ [95, 100])
    rw [List.append_assoc, List.pairwise_append]
    refine ⟨by decide, ?_, ?_⟩
    · rw [List.pairwise_append]
      refine ⟨hMpair, by decide, ?_⟩
      intro a ha b hb
      have h85 := (hMmem a ha).2
      have hb2 : b = 95 ∨ b = 100 := by simpa using hb
      omega
    · intro a ha b hb
      have ha10 : a = 0 ∨ a = 2 ∨ a = 8 ∨ a = 10 := by simpa using ha
      rcases List.mem_append.mp hb with hbM | hb2
      · have := (hMmem b hbM).1
        omega
      · have hb3 : b = 95 ∨ b = 100 := by simpa using hb2
        omega
  · show (([0, 2, 8, 10] ++ (if 0 < total then snaps.map (PoolMgr.segProgressPct total) else []))
        ++ [95, 100]).getLast? = some 100
    rw [show ([95, 100] : List Nat) = [95] ++ [100] from rfl, ← List.append_assoc,
      List.getLast?_concat]

/-- Witness for C7: three segments completing as 0, 1, 2, 3 across the poll
ticks give the event sequence 0, 2, 8, 10, 10, 35, 60, 85, 95, 100:
non-decreasing from 0 to 100. -/
theorem c7_progress_monotone_witness :
    List.Pairwise (fun a b => a ≤ b) (PoolMgr.progressEvents 3 [0, 1, 2, 3])
    ∧ (PoolMgr.progressEvents 3 [0, 1, 2, 3]).head? = some 0
    ∧ (PoolMgr.progressEvents 3 [0, 1, 2, 3]).getLast? = some 100
    ∧ PoolMgr.progressEvents 3 [0, 1, 2, 3] = [0, 2, 8, 10, 10, 35, 60, 85, 95, 100] := by
  have h := c7_progress_monotone 3 [0, 1, 2, 3] (by decide)
  exact ⟨h.1, h.2.1, h.2.2.1, rfl⟩
